import Mathlib

/-!
Verification of the docker-go-app HTTP service (`app.go`) against its
specification. The Go source is shallowly embedded: the JSON decoding done by
`encoding/json` (with `DisallowUnknownFields`) is modelled by a small JSON
parser over character lists plus a struct decoder reproducing Go's
case-insensitive field matching; each HTTP handler becomes a pure function from
its inputs (request body, injected database outcomes) to an `HttpResponse`
together with the resulting database state.
-/

namespace DockerGoApp

/-! ### JSON documents

Model of the JSON values handled by `encoding/json`. Numbers keep their source
lexeme (the handlers never interpret one), so no floating point is involved.
-/

inductive JsonValue where
  | null
  | boolean (b : Bool)
  | num (lexeme : String)
  | str (s : String)
  | arr (elems : List JsonValue)
  | obj (fields : List (String × JsonValue))

/-! ### JSON lexing helpers

Total functions over `List Char`, mirroring the token-level behaviour of Go's
`encoding/json` scanner on the constructs the service can receive. Unicode
escapes are decoded for the Basic Multilingual Plane (surrogate pairs are out
of the modelled subset, as is the rejection of leading zeros in exotic
positions beyond the integer part).
-/

def jsonWs (c : Char) : Bool :=
  c = ' ' || c = '\t' || c = '\n' || c = '\r'

def dropWs : List Char → List Char
  | [] => []
  | c :: cs => if jsonWs c then dropWs cs else c :: cs

def digitChar (c : Char) : Bool := '0' ≤ c && c ≤ '9'

def spanDigits : List Char → List Char × List Char
  | [] => ([], [])
  | c :: cs =>
    if digitChar c then
      ((spanDigits cs).1.cons c, (spanDigits cs).2)
    else ([], c :: cs)

def hexDigitVal (c : Char) : Option Nat :=
  if digitChar c then some (c.toNat - 48)
  else if 'a' ≤ c && c ≤ 'f' then some (c.toNat - 87)
  else if 'A' ≤ c && c ≤ 'F' then some (c.toNat - 55)
  else none

def simpleEscape (c : Char) : Option Char :=
  if c = '\"' then some '\"'
  else if c = '\\' then some '\\'
  else if c = '/' then some '/'
  else if c = 'n' then some '\n'
  else if c = 't' then some '\t'
  else if c = 'r' then some '\r'
  else if c = 'b' then some (Char.ofNat 8)
  else if c = 'f' then some (Char.ofNat 12)
  else none

/-- Scan the body of a JSON string literal, the opening quote already consumed;
returns the decoded characters and the input remaining after the closing
quote. -/
def scanStringBody (fuel : Nat) (input : List Char) :
    Option (List Char × List Char) :=
  match fuel, input with
  | 0, _ => none
  | _, [] => none
  | fuel + 1, c :: rest =>
    if c = '\"' then some ([], rest)
    else if c = '\\' then
      match rest with
      | 'u' :: h1 :: h2 :: h3 :: h4 :: rest2 =>
        match hexDigitVal h1, hexDigitVal h2, hexDigitVal h3, hexDigitVal h4 with
        | some v1, some v2, some v3, some v4 =>
          match scanStringBody fuel rest2 with
          | some (cs, rem) =>
            some (Char.ofNat (((v1 * 16 + v2) * 16 + v3) * 16 + v4) :: cs, rem)
          | none => none
        | _, _, _, _ => none
      | e :: rest2 =>
        match simpleEscape e with
        | some ec =>
          match scanStringBody fuel rest2 with
          | some (cs, rem) => some (ec :: cs, rem)
          | none => none
        | none => none
      | [] => none
    else
      match scanStringBody fuel rest with
      | some (cs, rem) => some (c :: cs, rem)
      | none => none

/-- Scan a JSON number starting at the first character, returning its lexeme. -/
def scanNumber (input : List Char) : Option (List Char × List Char) :=
  let signed := match input with
    | c :: rest => if c = '-' then (([c] : List Char), rest) else (([] : List Char), input)
    | [] => ([], input)
  match spanDigits signed.2 with
  | ([], _) => none
  | (intDigits, afterInt) =>
    match intDigits with
    | '0' :: _ :: _ => none
    | _ =>
      let fracScan : Option (List Char × List Char) :=
        match afterInt with
        | c :: rest =>
          if c = '.' then
            match spanDigits rest with
            | ([], _) => none
            | (ds, rem) => some (c :: ds, rem)
          else some ([], afterInt)
        | [] => some ([], afterInt)
      match fracScan with
      | none => none
      | some (fracDigits, afterFrac) =>
        let expScan : Option (List Char × List Char) :=
          match afterFrac with
          | c :: rest =>
            if c = 'e' || c = 'E' then
              let signedExp := match rest with
                | s :: r2 => if s = '+' || s = '-' then (([s] : List Char), r2) else (([] : List Char), rest)
                | [] => ([], rest)
              match spanDigits signedExp.2 with
              | ([], _) => none
              | (ds, rem) => some (c :: (signedExp.1 ++ ds), rem)
            else some ([], afterFrac)
          | [] => some ([], afterFrac)
        match expScan with
        | none => none
        | some (expDigits, afterExp) =>
          some (signed.1 ++ intDigits ++ fracDigits ++ expDigits, afterExp)

def matchKeyword : List Char → List Char → Option (List Char)
  | [], rem => some rem
  | k :: ks, c :: cs => if c = k then matchKeyword ks cs else none
  | _ :: _, [] => none

/-! ### JSON value parsing

Recursive descent, structural on a fuel counter; `Decoder.Decode` reads one
JSON value from the stream and ignores anything after it.
-/

mutual

/-- Parse one JSON value (leading whitespace allowed). -/
def parseValue : Nat → List Char → Option (JsonValue × List Char)
  | 0, _ => none
  | fuel + 1, input =>
    match dropWs input with
    | [] => none
    | c :: rest =>
      if c = '\"' then
        match scanStringBody (rest.length + 1) rest with
        | some (cs, rem) => some (.str (String.mk cs), rem)
        | none => none
      else if c = '\x7b' then
        match dropWs rest with
        | c2 :: rest2 =>
          if c2 = '\x7d' then some (.obj [], rest2)
          else parseMembers fuel (c2 :: rest2) []
        | [] => none
      else if c = '[' then
        match dropWs rest with
        | c2 :: rest2 =>
          if c2 = ']' then some (.arr [], rest2)
          else parseElements fuel (c2 :: rest2) []
        | [] => none
      else if c = 'n' then
        match matchKeyword ['u', 'l', 'l'] rest with
        | some rem => some (.null, rem)
        | none => none
      else if c = 't' then
        match matchKeyword ['r', 'u', 'e'] rest with
        | some rem => some (.boolean true, rem)
        | none => none
      else if c = 'f' then
        match matchKeyword ['a', 'l', 's', 'e'] rest with
        | some rem => some (.boolean false, rem)
        | none => none
      else if c = '-' || digitChar c then
        match scanNumber (c :: rest) with
        | some (ds, rem) => some (.num (String.mk ds), rem)
        | none => none
      else none

/-- Parse the members of a non-empty JSON object, accumulating in order. -/
def parseMembers : Nat → List Char → List (String × JsonValue) →
    Option (JsonValue × List Char)
  | 0, _, _ => none
  | fuel + 1, input, acc =>
    match dropWs input with
    | c :: rest =>
      if c = '\"' then
        match scanStringBody (rest.length + 1) rest with
        | some (kcs, rem1) =>
          match dropWs rem1 with
          | c2 :: rem2 =>
            if c2 = ':' then
              match parseValue fuel rem2 with
              | some (v, rem3) =>
                let acc2 := acc ++ [(String.mk kcs, v)]
                match dropWs rem3 with
                | c3 :: rem4 =>
                  if c3 = ',' then parseMembers fuel rem4 acc2
                  else if c3 = '\x7d' then some (.obj acc2, rem4)
                  else none
                | [] => none
              | none => none
            else none
          | [] => none
        | none => none
      else none
    | [] => none

/-- Parse the elements of a non-empty JSON array, accumulating in order. -/
def parseElements : Nat → List Char → List JsonValue →
    Option (JsonValue × List Char)
  | 0, _, _ => none
  | fuel + 1, input, acc =>
    match parseValue fuel input with
    | some (v, rem1) =>
      let acc2 := acc ++ [v]
      match dropWs rem1 with
      | c :: rem2 =>
        if c = ',' then parseElements fuel rem2 acc2
        else if c = ']' then some (.arr acc2, rem2)
        else none
      | [] => none
    | none => none

end

/-- Read the first JSON value of `s`, as `json.Decoder.Decode` does (trailing
bytes are left unread, not rejected); `none` on malformed or empty input. -/
def parseJsonValue (s : String) : Option JsonValue :=
  match parseValue (s.length + 2) s.toList with
  | some (v, _) => some v
  | none => none

/-! ### Decoding into `AddUserRequest`

Embedding of `decoder.Decode(&req)` with `decoder.DisallowUnknownFields()` for
`type AddUserRequest struct { Name string `json:"name"` }`: object keys are
matched against the `name` tag exact-or-ASCII-case-insensitively (Go's field
fold); a key matching no field is an error because unknown fields are
disallowed; a `null` value leaves the field untouched; a non-string value for
`name` is an unmarshalling error; a top-level `null` leaves the zero value.
-/

structure AddUserRequest where
  name : String
deriving Repr, DecidableEq

def asciiLowerChar (c : Char) : Char :=
  if 'A' ≤ c && c ≤ 'Z' then Char.ofNat (c.toNat + 32) else c

def foldedKey (k : String) : String :=
  String.mk (k.toList.map asciiLowerChar)

def keyIsNameField (k : String) : Bool := foldedKey k = "name"

def applyObjectFields : List (String × JsonValue) → AddUserRequest →
    Option AddUserRequest
  | [], req => some req
  | (k, v) :: rest, req =>
    if keyIsNameField k then
      match v with
      | .str s => applyObjectFields rest ⟨s⟩
      | .null => applyObjectFields rest req
      | _ => none
    else none

def decodeIntoAddUserRequest : JsonValue → Option AddUserRequest
  | .null => some ⟨""⟩
  | .obj fields => applyObjectFields fields ⟨""⟩
  | _ => none

/-- The whole of `decoder.Decode(&req)` on the request body. -/
def decodeAddUserRequest (body : String) : Option AddUserRequest :=
  match parseJsonValue body with
  | some v => decodeIntoAddUserRequest v
  | none => none

/-! ### HTTP responses and database state

`RespBody.raw` stands for the exact text handed to `http.Error` (which also
appends a newline on the wire); `RespBody.json` for the document produced by
`json.NewEncoder(w).Encode`; `RespBody.empty` for handlers that write no body.

The `users` table is a row list plus the `SERIAL` sequence counter; driver
failures (connection loss, constraint violation, scan errors) are injected as
explicit parameters since they originate outside the program.
-/

inductive RespBody where
  | empty
  | raw (s : String)
  | json (v : JsonValue)

structure HttpResponse where
  status : Nat
  body : RespBody

structure DBState where
  rows : List (Nat × String)
  nextSeq : Nat

/-- `INSERT INTO users (name) VALUES ($1) RETURNING id`: appends a row with the
next `SERIAL` id and returns that id. -/
def createUser (db : DBState) (nm : String) : Nat × DBState :=
  (db.nextSeq, ⟨db.rows ++ [(db.nextSeq, nm)], db.nextSeq + 1⟩)

def invalidPayloadBody : String := "\x7b\"error\": \"Invalid request payload\"\x7d"

def nameRequiredBody : String := "\x7b\"error\": \"Name is required\"\x7d"

def addUserFailedBody : String := "\x7b\"error\": \"Failed to add user to database\"\x7d"

/-- JSON object written for one user (`UserResponse` and the listing items). -/
def encodeUserJson (id : Nat) (nm : String) : JsonValue :=
  .obj [("id", .num (toString id)), ("name", .str nm)]

/-- `handleAddUser`: strict decode, empty-name check, then the insert, whose
driver-level failure is the `insertFails` parameter. -/
def handleAddUser (db : DBState) (insertFails : Bool) (body : String) :
    HttpResponse × DBState :=
  match decodeAddUserRequest body with
  | none => (⟨400, .raw invalidPayloadBody⟩, db)
  | some req =>
    if req.name = "" then (⟨400, .raw nameRequiredBody⟩, db)
    else if insertFails then (⟨500, .raw addUserFailedBody⟩, db)
    else
      let inserted := createUser db req.name
      (⟨201, .json (encodeUserJson inserted.1 req.name)⟩, inserted.2)

/-! ### GET /api/users

The driver outcome is injected: the whole query can fail, and each row's
`rows.Scan` can fail. The accumulating slice is created with
`make([]User, 0)` — a non-nil slice — so it is modelled as
`Option (List ...)` where `none` is Go's nil slice (which `encoding/json`
renders as `null`) and the handler only ever builds `some`.
-/

/-- One `rows.Next`/`rows.Scan` step outcome delivered by the driver. -/
abbrev ScanRow := Except String (Nat × String)

/-- The `for rows.Next()` loop: stop with the error of the first failing scan,
otherwise collect every row in order. -/
def scanLoop : List ScanRow → List (Nat × String) →
    Except String (List (Nat × String))
  | [], acc => .ok acc
  | .error e :: _, _ => .error e
  | .ok r :: rest, acc => scanLoop rest (acc ++ [r])

/-- How `encoding/json` renders a `[]User` value: a nil slice becomes `null`,
any other slice an array. -/
def encodeUsersSlice : Option (List (Nat × String)) → JsonValue
  | none => JsonValue.null
  | some l => .arr (l.map fun p => encodeUserJson p.1 p.2)

/-- `handleGetUsers` on the injected driver outcome for
`SELECT * FROM users;`. -/
def handleGetUsers (queryRes : Except String (List ScanRow)) : HttpResponse :=
  match queryRes with
  | .error e => ⟨500, .raw e⟩
  | .ok scans =>
    match scanLoop scans [] with
    | .error e => ⟨500, .raw e⟩
    | .ok users =>
      ⟨200, .json (.obj [("users", encodeUsersSlice (some users))])⟩

/-! ### GET /_internal/health -/

/-- `dbPingTimeout = 10 * time.Millisecond`, in nanoseconds as `time.Duration`
counts. -/
def dbPingTimeout : Nat := 10 * 1000000

/-- `dbConnectionTimeout = 100 * time.Millisecond`. -/
def dbConnectionTimeout : Nat := 100 * 1000000

/-- `handleHealthCheck`: pings with a context derived from
`context.Background()` and `dbPingTimeout`, never from the request, so the
inbound request's deadline is an ignored parameter; `ping t` tells whether the
pool answers within timeout `t`. No body is ever written; success returns the
implicit 200. -/
def handleHealthCheck (db : DBState) (_reqDeadline : Option Nat)
    (ping : Nat → Bool) : HttpResponse × DBState :=
  if ping dbPingTimeout then (⟨200, .empty⟩, db) else (⟨502, .empty⟩, db)

/-! ### Routing and configuration -/

/-- The `/api/users` route: `switch r.Method` with cases for `http.MethodGet`
and `http.MethodPost` and no default, so any other method reaches no handler
(`none`). -/
def apiUsersRoute (method : String) (db : DBState) (insertFails : Bool)
    (body : String) (queryRes : Except String (List ScanRow)) :
    Option (HttpResponse × DBState) :=
  if method = "GET" then some (handleGetUsers queryRes, db)
  else if method = "POST" then some (handleAddUser db insertFails body)
  else none

def AppPortEnvKey : String := "APP_PORT"

def DbUserEnvKey : String := "DB_USER"

def DbPasswordEnvKey : String := "DB_PASSWORD"

def DbHostEnvKey : String := "DB_HOST"

def DbPortEnvKey : String := "DB_PORT"

def DbNameEnvKey : String := "DB_NAME"

structure DBConfig where
  user : String
  password : String
  host : String
  port : String
  dbname : String
deriving Repr, DecidableEq

/-- The environment as `os.Getenv` sees it: a total map to strings, an unset
variable reading as `""`. Defaulting in `initDB`: every variable except the
password is replaced by its default when it reads empty. -/
def resolveDBConfig (env : String → String) : DBConfig :=
  let dbPassword := env DbPasswordEnvKey
  let dbUser := if env DbUserEnvKey = "" then "postgres" else env DbUserEnvKey
  let dbHost := if env DbHostEnvKey = "" then "localhost" else env DbHostEnvKey
  let dbPort := if env DbPortEnvKey = "" then "5432" else env DbPortEnvKey
  let dbName := if env DbNameEnvKey = "" then "postgres" else env DbNameEnvKey
  ⟨dbUser, dbPassword, dbHost, dbPort, dbName⟩

/-- Port selection in `main`. -/
def resolveAppPort (env : String → String) : String :=
  if env AppPortEnvKey = "" then "8080" else env AppPortEnvKey

/-- The bootstrap DDL run by `initDB`. -/
def createTableStmt : String :=
  "CREATE TABLE IF NOT EXISTS users (id SERIAL PRIMARY KEY, name TEXT NOT NULL);"

/-- Invariant of the persisted table: every row's name is non-empty (ids are
`Nat`, hence never null, in this model). -/
def usersInvariant (db : DBState) : Prop :=
  ∀ p ∈ db.rows, p.2 ≠ ""

/-! ### Helper lemmas -/

theorem scanLoop_map_ok (rows : List (Nat × String)) :
    ∀ acc, scanLoop (rows.map Except.ok) acc = .ok (acc ++ rows) := by
  induction rows with
  | nil => intro acc; simp [scanLoop]
  | cons r rest ih =>
    intro acc
    simp only [List.map_cons, scanLoop, ih]
    simp

theorem scanLoop_first_error (e : String) (post : List ScanRow) :
    ∀ (pre : List (Nat × String)) acc,
      scanLoop (pre.map Except.ok ++ Except.error e :: post) acc = .error e := by
  intro pre
  induction pre with
  | nil => intro acc; simp [scanLoop]
  | cons r rest ih => intro acc; simpa [scanLoop] using ih (acc ++ [r])

theorem usersInvariant_createUser {db : DBState} {nm : String}
    (h : usersInvariant db) (hnm : nm ≠ "") :
    usersInvariant (createUser db nm).2 := by
  intro p hp
  simp only [createUser, List.mem_append, List.mem_singleton] at hp
  rcases hp with hp | hp
  · exact h p hp
  · rw [hp]; exact hnm

/-! ### The claims -/

/-- Claim C1: `handleAddUser` validates in order — a body that does not
strictly decode yields 400 `Invalid request payload`; a decoded body with an
empty `name` yields 400 `Name is required`; only otherwise is the insert
attempted; a body with both an unknown field and an empty name gets
`Invalid request payload`, while `{}` and a body with `"name":""` get
`Name is required`. -/
theorem c1_post_validation_order :
    (∀ db insertFails body, decodeAddUserRequest body = none →
      handleAddUser db insertFails body = (⟨400, .raw invalidPayloadBody⟩, db)) ∧
    (∀ db insertFails body req, decodeAddUserRequest body = some req →
      req.name = "" →
      handleAddUser db insertFails body = (⟨400, .raw nameRequiredBody⟩, db)) ∧
    (∀ db insertFails body req, decodeAddUserRequest body = some req →
      req.name ≠ "" →
      handleAddUser db insertFails body =
        (if insertFails then (⟨500, .raw addUserFailedBody⟩, db)
         else (⟨201, .json (encodeUserJson (createUser db req.name).1 req.name)⟩,
               (createUser db req.name).2))) ∧
    (∀ db insertFails,
      handleAddUser db insertFails "\x7b\"name\":\"\",\"extra\":\"x\"\x7d" =
        (⟨400, .raw invalidPayloadBody⟩, db)) ∧
    (∀ db insertFails,
      handleAddUser db insertFails "\x7b\x7d" =
        (⟨400, .raw nameRequiredBody⟩, db)) ∧
    (∀ db insertFails,
      handleAddUser db insertFails "\x7b\"name\":\"\"\x7d" =
        (⟨400, .raw nameRequiredBody⟩, db)) := by
  refine ⟨?_, ?_, ?_, fun db f => rfl, fun db f => rfl, fun db f => rfl⟩
  · intro db f body h
    simp [handleAddUser, h]
  · intro db f body req h hn
    simp [handleAddUser, h, hn]
  · intro db f body req h hn
    simp [handleAddUser, h, hn]

/-- Witness for C1 at concrete requests. -/
theorem c1_post_validation_order_witness :
    handleAddUser ⟨[], 1⟩ false "" = (⟨400, .raw invalidPayloadBody⟩, ⟨[], 1⟩) ∧
    handleAddUser ⟨[], 1⟩ false "\x7b\x7d" =
      (⟨400, .raw nameRequiredBody⟩, ⟨[], 1⟩) :=
  ⟨c1_post_validation_order.1 ⟨[], 1⟩ false "" rfl,
   c1_post_validation_order.2.1 ⟨[], 1⟩ false "\x7b\x7d" ⟨""⟩ rfl rfl⟩

/-- Claim C2: a strictly decoded body with non-empty `name` whose insert
succeeds gets 201 with the store-assigned id and the given name; a failed
insert gets 500 with `Failed to add user to database` and an unchanged store,
so no row id is reported. -/
theorem c2_post_insert_result :
    (∀ db body req, decodeAddUserRequest body = some req → req.name ≠ "" →
      handleAddUser db false body =
        (⟨201, .json (.obj [("id", .num (toString (createUser db req.name).1)),
                            ("name", .str req.name)])⟩,
         (createUser db req.name).2)) ∧
    (∀ db body req, decodeAddUserRequest body = some req → req.name ≠ "" →
      handleAddUser db true body = (⟨500, .raw addUserFailedBody⟩, db)) := by
  constructor
  · intro db body req h hn
    simp [handleAddUser, h, hn, encodeUserJson]
  · intro db body req h hn
    simp [handleAddUser, h, hn]

/-- Witness for C2 at a concrete request. -/
theorem c2_post_insert_result_witness :
    handleAddUser ⟨[], 1⟩ false "\x7b\"name\":\"Alice\"\x7d" =
      (⟨201, .json (.obj [("id", .num "1"), ("name", .str "Alice")])⟩,
       ⟨[(1, "Alice")], 2⟩) ∧
    handleAddUser ⟨[], 1⟩ true "\x7b\"name\":\"Alice\"\x7d" =
      (⟨500, .raw addUserFailedBody⟩, ⟨[], 1⟩) :=
  ⟨c2_post_insert_result.1 ⟨[], 1⟩ "\x7b\"name\":\"Alice\"\x7d" ⟨"Alice"⟩ rfl
     (by decide),
   c2_post_insert_result.2 ⟨[], 1⟩ "\x7b\"name\":\"Alice\"\x7d" ⟨"Alice"⟩ rfl
     (by decide)⟩

/-- Claim C3: a successful listing of an empty table answers 200 with
`users` bound to the empty JSON array — never `null` — and with rows present
the body holds one id/name object per row. -/
theorem c3_get_users_shape :
    (handleGetUsers (.ok []) = ⟨200, .json (.obj [("users", .arr [])])⟩) ∧
    (∀ rows : List (Nat × String),
      handleGetUsers (.ok (rows.map Except.ok)) =
        ⟨200, .json (.obj [("users",
          .arr (rows.map fun p => encodeUserJson p.1 p.2))])⟩) ∧
    (∀ queryRes, (handleGetUsers queryRes).status = 200 →
      ∃ l, (handleGetUsers queryRes).body =
        .json (.obj [("users", JsonValue.arr l)])) := by
  refine ⟨rfl, ?_, ?_⟩
  · intro rows
    simp [handleGetUsers, scanLoop_map_ok, encodeUsersSlice]
  · intro queryRes h
    match queryRes with
    | .error e => simp [handleGetUsers] at h
    | .ok scans =>
      cases hs : scanLoop scans [] with
      | error e => simp [handleGetUsers, hs] at h
      | ok users =>
        exact ⟨users.map fun p => encodeUserJson p.1 p.2,
          by simp [handleGetUsers, hs, encodeUsersSlice]⟩

/-- Witness for C3 on the empty table. -/
theorem c3_get_users_shape_witness :
    ∃ l, (handleGetUsers (Except.ok ([] : List ScanRow))).body =
      .json (.obj [("users", JsonValue.arr l)]) :=
  c3_get_users_shape.2.2 (.ok []) rfl

/-- Claim C4: a failed query or row scan on the listing endpoint answers 500
with the raw underlying error text as body, and it is the only endpoint doing
so — the creation handler's raw bodies are the three fixed messages and the
health handler writes no body at all. -/
theorem c4_raw_error_only_listing :
    (∀ e, handleGetUsers (.error e) = ⟨500, .raw e⟩) ∧
    (∀ (pre : List (Nat × String)) e post,
      handleGetUsers (.ok (pre.map Except.ok ++ Except.error e :: post)) =
        ⟨500, .raw e⟩) ∧
    (∀ db insertFails body s,
      (handleAddUser db insertFails body).1.body = .raw s →
      s = invalidPayloadBody ∨ s = nameRequiredBody ∨ s = addUserFailedBody) ∧
    (∀ db d ping, (handleHealthCheck db d ping).1.body = .empty) := by
  refine ⟨fun e => rfl, ?_, ?_, ?_⟩
  · intro pre e post
    simp [handleGetUsers, scanLoop_first_error]
  · intro db insertFails body s h
    cases hd : decodeAddUserRequest body with
    | none =>
      simp [handleAddUser, hd] at h
      exact Or.inl h.symm
    | some req =>
      by_cases hn : req.name = ""
      · simp [handleAddUser, hd, hn] at h
        exact Or.inr (Or.inl h.symm)
      · by_cases hf : insertFails
        · simp [handleAddUser, hd, hn, hf] at h
          exact Or.inr (Or.inr h.symm)
        · simp [handleAddUser, hd, hn, hf] at h
  · intro db d ping
    by_cases hp : ping dbPingTimeout <;> simp [handleHealthCheck, hp]

/-- Witness for C4 at a concrete failing query and a concrete rejection. -/
theorem c4_raw_error_only_listing_witness :
    handleGetUsers (.ok [Except.ok (1, "Ada"), Except.error "scan blew up"]) =
      ⟨500, .raw "scan blew up"⟩ ∧
    (invalidPayloadBody = invalidPayloadBody ∨
     invalidPayloadBody = nameRequiredBody ∨
     invalidPayloadBody = addUserFailedBody) :=
  ⟨c4_raw_error_only_listing.2.1 [(1, "Ada")] "scan blew up" [],
   c4_raw_error_only_listing.2.2.1 ⟨[], 1⟩ false "" invalidPayloadBody rfl⟩

/-- Claim C5: the health handler pings with the fixed `dbPingTimeout`
(10 ms), so its result is independent of the inbound request's deadline; a
successful ping answers 200 with an empty body, a failed one 502 with an empty
body, and the store is never written. -/
theorem c5_health_check_contract :
    (∀ db d d' ping,
      handleHealthCheck db d ping = handleHealthCheck db d' ping) ∧
    (∀ db d ping, ping dbPingTimeout = true →
      handleHealthCheck db d ping = (⟨200, .empty⟩, db)) ∧
    (∀ db d ping, ping dbPingTimeout = false →
      handleHealthCheck db d ping = (⟨502, .empty⟩, db)) ∧
    (∀ db d ping, (handleHealthCheck db d ping).2 = db) ∧
    dbPingTimeout = 10 * 1000000 := by
  refine ⟨fun db d d' ping => rfl, ?_, ?_, ?_, rfl⟩
  · intro db d ping h
    simp [handleHealthCheck, h]
  · intro db d ping h
    simp [handleHealthCheck, h]
  · intro db d ping
    by_cases hp : ping dbPingTimeout <;> simp [handleHealthCheck, hp]

/-- Witness for C5 with an always-reachable and an unreachable database. -/
theorem c5_health_check_contract_witness :
    handleHealthCheck ⟨[], 1⟩ none (fun _ => true) = (⟨200, .empty⟩, ⟨[], 1⟩) ∧
    handleHealthCheck ⟨[], 1⟩ (some 5) (fun _ => false) =
      (⟨502, .empty⟩, ⟨[], 1⟩) :=
  ⟨c5_health_check_contract.2.1 ⟨[], 1⟩ none (fun _ => true) rfl,
   c5_health_check_contract.2.2.1 ⟨[], 1⟩ (some 5) (fun _ => false) rfl⟩

set_option maxRecDepth 8192 in
/-- Claim C6: the store is append-only with non-empty names — the creation
handler either leaves the rows unchanged or appends exactly one row created
from a non-empty name, so the non-empty-name invariant is preserved; the
health handler never changes the store; and the bootstrap DDL declares the
name column `NOT NULL`. -/
theorem c6_append_only_nonempty_names :
    (∀ db insertFails body,
      (handleAddUser db insertFails body).2 = db ∨
      ∃ nm, nm ≠ "" ∧
        (handleAddUser db insertFails body).2 = (createUser db nm).2) ∧
    (∀ db insertFails body, usersInvariant db →
      usersInvariant (handleAddUser db insertFails body).2) ∧
    (∀ db d ping, (handleHealthCheck db d ping).2 = db) ∧
    List.IsInfix "NOT NULL".toList createTableStmt.toList := by
  have hshape : ∀ db insertFails body,
      (handleAddUser db insertFails body).2 = db ∨
      ∃ nm, nm ≠ "" ∧
        (handleAddUser db insertFails body).2 = (createUser db nm).2 := by
    intro db insertFails body
    cases hd : decodeAddUserRequest body with
    | none => exact Or.inl (by simp [handleAddUser, hd])
    | some req =>
      by_cases hn : req.name = ""
      · exact Or.inl (by simp [handleAddUser, hd, hn])
      · by_cases hf : insertFails
        · exact Or.inl (by simp [handleAddUser, hd, hn, hf])
        · exact Or.inr ⟨req.name, hn, by simp [handleAddUser, hd, hn, hf]⟩
  refine ⟨hshape, ?_, ?_, by decide⟩
  · intro db insertFails body hinv
    rcases hshape db insertFails body with h | ⟨nm, hnm, h⟩
    · rw [h]; exact hinv
    · rw [h]; exact usersInvariant_createUser hinv hnm
  · intro db d ping
    by_cases hp : ping dbPingTimeout <;> simp [handleHealthCheck, hp]

/-- Witness for C6: inserting a non-empty name into a store satisfying the
invariant keeps it. -/
theorem c6_append_only_nonempty_names_witness :
    usersInvariant (handleAddUser ⟨[(1, "Ada")], 2⟩ false
      "\x7b\"name\":\"Bob\"\x7d").2 :=
  c6_append_only_nonempty_names.2.1 ⟨[(1, "Ada")], 2⟩ false
    "\x7b\"name\":\"Bob\"\x7d" (by simp [usersInvariant])

/-- Claim C7: any method other than GET and POST on `/api/users` reaches no
handler — the switch has no default, so nothing is written. -/
theorem c7_method_fallthrough :
    ∀ method db insertFails body queryRes,
      method ≠ "GET" → method ≠ "POST" →
      apiUsersRoute method db insertFails body queryRes = none := by
  intro method db insertFails body queryRes h1 h2
  simp [apiUsersRoute, h1, h2]

/-- Witness for C7 at method PUT. -/
theorem c7_method_fallthrough_witness :
    apiUsersRoute "PUT" ⟨[], 1⟩ false "" (.ok []) = none :=
  c7_method_fallthrough "PUT" ⟨[], 1⟩ false "" (.ok [])
    (by decide) (by decide)

/-- Claim C8: every configuration variable is optional — an unset (empty)
variable falls back to its default (`8080`, `postgres`, `localhost`, `5432`,
`postgres`, and the empty string for the password, which is read verbatim) and
a set variable is used verbatim. -/
theorem c8_env_defaults :
    ∀ env : String → String,
      (env AppPortEnvKey = "" → resolveAppPort env = "8080") ∧
      (env AppPortEnvKey ≠ "" → resolveAppPort env = env AppPortEnvKey) ∧
      (env DbUserEnvKey = "" → (resolveDBConfig env).user = "postgres") ∧
      (env DbUserEnvKey ≠ "" → (resolveDBConfig env).user = env DbUserEnvKey) ∧
      (env DbHostEnvKey = "" → (resolveDBConfig env).host = "localhost") ∧
      (env DbHostEnvKey ≠ "" → (resolveDBConfig env).host = env DbHostEnvKey) ∧
      (env DbPortEnvKey = "" → (resolveDBConfig env).port = "5432") ∧
      (env DbPortEnvKey ≠ "" → (resolveDBConfig env).port = env DbPortEnvKey) ∧
      (env DbNameEnvKey = "" → (resolveDBConfig env).dbname = "postgres") ∧
      (env DbNameEnvKey ≠ "" →
        (resolveDBConfig env).dbname = env DbNameEnvKey) ∧
      (resolveDBConfig env).password = env DbPasswordEnvKey := by
  intro env
  refine ⟨?_, ?_, ?_, ?_, ?_, ?_, ?_, ?_, ?_, ?_, rfl⟩ <;>
    intro h <;> simp [resolveAppPort, resolveDBConfig, h]

/-- Witness for C8 on the empty environment and one set variable. -/
theorem c8_env_defaults_witness :
    resolveAppPort (fun _ => "") = "8080" ∧
    (resolveDBConfig (fun _ => "")).user = "postgres" ∧
    (resolveDBConfig (fun _ => "")).host = "localhost" ∧
    (resolveDBConfig (fun _ => "")).port = "5432" ∧
    (resolveDBConfig (fun _ => "")).dbname = "postgres" ∧
    (resolveDBConfig (fun _ => "")).password = "" ∧
    resolveAppPort (fun _ => "9999") = "9999" :=
  ⟨(c8_env_defaults (fun _ => "")).1 rfl,
   (c8_env_defaults (fun _ => "")).2.2.1 rfl,
   (c8_env_defaults (fun _ => "")).2.2.2.2.1 rfl,
   (c8_env_defaults (fun _ => "")).2.2.2.2.2.2.1 rfl,
   (c8_env_defaults (fun _ => "")).2.2.2.2.2.2.2.2.1 rfl,
   (c8_env_defaults (fun _ => "")).2.2.2.2.2.2.2.2.2.2,
   (c8_env_defaults (fun _ => "9999")).2.1 (by decide)⟩

/-- Claim C9: a completely empty request body fails the JSON decode (end of
input) before the name-presence check, so the answer is 400
`Invalid request payload`, not `Name is required`. -/
theorem c9_empty_body_invalid_payload :
    decodeAddUserRequest "" = none ∧
    ∀ db insertFails, handleAddUser db insertFails "" =
      (⟨400, .raw invalidPayloadBody⟩, db) :=
  ⟨rfl, fun _ _ => rfl⟩

/-- Claim C10: JSON keys are matched case-insensitively against the `name`
field, so `"Name"` and `"NAME"` supply it rather than being rejected as
unknown fields, and a non-empty value creates the user with status 201. -/
theorem c10_case_insensitive_field_match :
    decodeAddUserRequest "\x7b\"Name\":\"Alice\"\x7d" = some ⟨"Alice"⟩ ∧
    decodeAddUserRequest "\x7b\"NAME\":\"Alice\"\x7d" = some ⟨"Alice"⟩ ∧
    (∀ db, handleAddUser db false "\x7b\"Name\":\"Alice\"\x7d" =
      (⟨201, .json (encodeUserJson db.nextSeq "Alice")⟩,
       ⟨db.rows ++ [(db.nextSeq, "Alice")], db.nextSeq + 1⟩)) ∧
    (∀ db, handleAddUser db false "\x7b\"NAME\":\"Alice\"\x7d" =
      (⟨201, .json (encodeUserJson db.nextSeq "Alice")⟩,
       ⟨db.rows ++ [(db.nextSeq, "Alice")], db.nextSeq + 1⟩)) :=
  ⟨rfl, rfl, fun _ => rfl, fun _ => rfl⟩

end DockerGoApp
